import Mathlib

set_option maxRecDepth 100000

/- A verification development for the core data pipeline of the POS-to-PDF
   billing generator (src/app.py): record normalization (carry-forward fill
   and blank-row removal), customer identity resolution, transaction
   filtering, line-item parsing, scheme pricing and billing aggregation.

   Spreadsheet cell values reaching the pipeline through pandas are modelled
   by the variant `Cell` below: missing (NaN/NaT), a finite float, a datetime
   (pandas timestamps are an integer count of nanoseconds since the epoch),
   or a text string.  Python's best-effort numeric coercions (`float`, `int`,
   `str`) are modelled by executable functions; exceptions raised and caught
   by the source's try/except chains appear as `Option`/`Except` values. -/

inductive Cell where
  | blank
  | num (q : ℚ)
  | time (t : ℤ)
  | text (s : String)
deriving DecidableEq, Inhabited

/-- Whitespace as Python's `str.strip` and the regex class `\s` treat it,
over ASCII: space, tab, newline, carriage return, vertical tab, form feed.
(Unicode whitespace is not modelled; no claim involves it.) -/
def pyIsSpace (c : Char) : Bool :=
  c == ' ' || c == '\t' || c == '\n' || c == '\r' || c == '\x0b' || c == '\x0c'

/-- Drop leading and trailing whitespace from a character list. -/
def stripWs (cs : List Char) : List Char :=
  ((cs.dropWhile pyIsSpace).reverse.dropWhile pyIsSpace).reverse

/-- Python `str.strip()`. -/
def pyStrip (s : String) : String := String.mk (stripWs s.data)

/-- Python `''.join(filter(str.isdigit, s))`: keep only the decimal digits
of `s`.  (`str.isdigit` also accepts some Unicode digit characters, which
are not modelled; no claim involves them.) -/
def onlyDigits (s : String) : String := String.mk (s.data.filter Char.isDigit)

/-- Numeric value of a list of decimal digit characters. -/
def digitsVal (cs : List Char) : ℕ :=
  cs.foldl (fun a c => 10 * a + (c.toNat - 48)) 0

/-- Case-insensitive comparison of a character list against a lowercase
pattern, for Python float literals `inf` / `infinity` / `nan`. -/
def lowerEq (cs : List Char) (t : List Char) : Bool :=
  cs.map Char.toLower == t

/-- Mantissa of a Python float literal: `digits [. digits]` or `. digits`,
with at least one digit.  Returns its exact rational value and the rest of
the input. -/
def parseMantissa (cs : List Char) : Option (ℚ × List Char) :=
  let ip := cs.takeWhile Char.isDigit
  let r1 := cs.dropWhile Char.isDigit
  match r1 with
  | '.' :: r2 =>
    let fp := r2.takeWhile Char.isDigit
    let r3 := r2.dropWhile Char.isDigit
    if ip.isEmpty && fp.isEmpty then none
    else some ((digitsVal ip : ℚ) + (digitsVal fp : ℚ) / (10 : ℚ) ^ fp.length, r3)
  | _ => if ip.isEmpty then none else some ((digitsVal ip : ℚ), r1)

/-- Optional exponent part of a Python float literal: empty, or
`(e|E) [sign] digits` consuming the whole rest of the input. -/
def parseExpPart (base : ℚ) (cs : List Char) : Option ℚ :=
  match cs with
  | [] => some base
  | c :: rest =>
    if c = 'e' ∨ c = 'E' then
      let sd : ℤ × List Char :=
        match rest with
        | '+' :: r => (1, r)
        | '-' :: r => (-1, r)
        | r => (1, r)
      let dg := sd.2.takeWhile Char.isDigit
      if dg.isEmpty || !(sd.2.dropWhile Char.isDigit).isEmpty then none
      else some (base * (10 : ℚ) ^ (sd.1 * (digitsVal dg : ℤ)))
    else none

/-- Model of Python `float(s)` on a string, keeping the exact rational value
of the literal.  `none` models a `ValueError` (the text is not a float
literal).  The literals `inf`, `infinity` and `nan` (any case, optionally
signed) denote non-finite floats, which no caller of this model can use (a
subsequent `int()` conversion raises), so they are also mapped to `none`
where that reading matters and handled at the call sites.  Decimal-to-binary
rounding of Python floats is not modelled; no claim depends on it.
Digit-separating underscores (accepted by Python) are not modelled. -/
def pyFloatCore (s : String) : Option ℚ :=
  let cs := stripWs s.data
  let sb : ℚ × List Char :=
    match cs with
    | '+' :: r => (1, r)
    | '-' :: r => (-1, r)
    | r => (1, r)
  if lowerEq sb.2 ['i', 'n', 'f'] || lowerEq sb.2 ['i', 'n', 'f', 'i', 'n', 'i', 't', 'y'] ||
      lowerEq sb.2 ['n', 'a', 'n'] then none
  else
    match parseMantissa sb.2 with
    | some (m, rest) => (parseExpPart m rest).map (fun v => sb.1 * v)
    | none => none

/-- Truncation toward zero, as Python `int()` applied to a float. -/
def ratTrunc (q : ℚ) : ℤ := if q < 0 then -⌊-q⌋ else ⌊q⌋

/-- Magnitude at which `float(s)` overflows to infinity (approximately; the
exact double-precision boundary is immaterial to every claim), making the
subsequent `int()` raise `OverflowError`. -/
def floatOverflow : ℚ := ((2 ^ 1024 : ℕ) : ℚ)

/-- Model of Python `str(int(float(s)))` for a string `s`, as both phone
cleaners attempt first.  `none` models the caught `ValueError` (not a float
literal, or a `nan` literal whose `int()` conversion raises) or
`OverflowError` (overflow to infinity, or an `inf` literal). -/
def intFloatStr (s : String) : Option ℤ :=
  match pyFloatCore s with
  | some q => if q < floatOverflow ∧ -floatOverflow < q then some (ratTrunc q) else none
  | none => none

/-- Nanoseconds per day, for pandas timestamps. -/
def nsPerDay : ℤ := 86400 * 1000000000

/-- Zero-padded two-digit rendering of a small nonnegative integer. -/
def pad2 (n : ℤ) : String := if n < 10 then "0" ++ toString n else toString n

/-- Gregorian (year, month, day) from a count of days since 1970-01-01
(civil-from-days algorithm), for rendering datetime cells as text. -/
def civilFromDays (z0 : ℤ) : ℤ × ℤ × ℤ :=
  let z := z0 + 719468
  let era := Int.ediv z 146097
  let doe := z - era * 146097
  let yoe := Int.ediv (doe - Int.ediv doe 1460 + Int.ediv doe 36524 - Int.ediv doe 146096) 365
  let y := yoe + era * 400
  let doy := doe - (365 * yoe + Int.ediv yoe 4 - Int.ediv yoe 100)
  let mp := Int.ediv (5 * doy + 2) 153
  let d := doy - Int.ediv (153 * mp + 2) 5 + 1
  let m := mp + (if mp < 10 then 3 else -9)
  (y + (if m ≤ 2 then 1 else 0), m, d)

/-- Rendering of a pandas timestamp (nanoseconds since the epoch) as
`str()` prints it: `YYYY-MM-DD HH:MM:SS`.  Sub-second digits are not
rendered; no claim depends on them. -/
def timeStrNs (t : ℤ) : String :=
  let days := Int.ediv t nsPerDay
  let secs := Int.ediv (Int.emod t nsPerDay) 1000000000
  let ymd := civilFromDays days
  toString ymd.1 ++ "-" ++ pad2 ymd.2.1 ++ "-" ++ pad2 ymd.2.2 ++ " " ++
    pad2 (Int.ediv secs 3600) ++ ":" ++ pad2 (Int.emod (Int.ediv secs 60) 60) ++ ":" ++
    pad2 (Int.emod secs 60)

/-- Rendering of a float cell as `str()` prints it.  Python prints the
shortest round-tripping decimal (`"60.0"`, `"27.5"`); this model renders the
exact rational instead.  The only downstream uses are (a) the discount
pattern search, which can never match either rendering since neither
contains a parenthesis, and (b) display-only name cleaning, which no claim
evaluates on numeric cells — so no claim depends on the difference. -/
def floatStr (q : ℚ) : String := toString q

/-- Model of Python `str()` on a cell value.  Missing values print as
`"nan"` (pandas `NaN`). -/
def pyStr : Cell → String
  | Cell.blank => "nan"
  | Cell.num q => floatStr q
  | Cell.time t => timeStrNs t
  | Cell.text s => s

/-- `get_unique_customers.clean_phone_number` (src/app.py:94-100): if the
value is missing, return `""`; otherwise try `str(int(float(val)))`; on
`ValueError`/`TypeError`/`OverflowError` fall back to `str(val).strip()`.
A float cell always succeeds numerically; a datetime cell raises
`TypeError` in `float()` and falls back to its stripped string rendering
(which `str()` produces with no surrounding whitespace). -/
def clean_phone_number : Cell → String
  | Cell.blank => ""
  | Cell.num q => toString (ratTrunc q)
  | Cell.time t => pyStrip (pyStr (Cell.time t))
  | Cell.text s =>
    match intFloatStr s with
    | some n => toString n
    | none => pyStrip s

/-- `filter_customer_transactions.clean_phone` (src/app.py:135-139): try
`str(int(float(str(val))))`; on any exception fall back to
`''.join(filter(str.isdigit, str(val)))`.  A missing value stringifies to
`"nan"`, whose `float()` parses to NaN and whose `int()` then raises, so the
digit-strip fallback yields `""`.  A float cell round-trips through
`str`/`float` to its own value (repr round-trip) and truncates.  A datetime
cell stringifies to `YYYY-MM-DD HH:MM:SS`, which is not a float literal, so
its digits are kept. -/
def clean_phone : Cell → String
  | Cell.blank => ""
  | Cell.num q => toString (ratTrunc q)
  | Cell.time t => onlyDigits (pyStr (Cell.time t))
  | Cell.text s =>
    match intFloatStr s with
    | some n => toString n
    | none => onlyDigits s

/-- Claim C1, counterexample: the two phone cleaners are not extensionally
equal.  On the text value `"98-76"`, whose numeric interpretation fails, the
Identity Resolver's cleaner returns the whitespace-trimmed raw text
`"98-76"`, while the Transaction Filter's cleaner strips non-digits and
returns `"9876"`. -/
theorem C1_phone_normalization_counterexample :
    clean_phone_number (Cell.text "98-76") = "98-76" ∧
    clean_phone (Cell.text "98-76") = "9876" ∧
    clean_phone_number (Cell.text "98-76") ≠ clean_phone (Cell.text "98-76") := by
  decide

/-- Claim C1, amended: both cleaners first attempt the numeric
interpretation (parse as a possibly float/scientific-notation number,
truncate to an integer, render as a plain decimal digit string), and agree
on every missing value and every value whose numeric interpretation
succeeds; but when it fails on a text value, the Identity Resolver's cleaner
only trims surrounding whitespace from the raw text, while the Transaction
Filter's cleaner strips all non-digit characters — the two functions are
not extensionally equal. -/
theorem C1_phone_normalization_amended :
    (∀ q : ℚ, clean_phone_number (Cell.num q) = toString (ratTrunc q) ∧
      clean_phone (Cell.num q) = toString (ratTrunc q)) ∧
    (clean_phone_number Cell.blank = "" ∧ clean_phone Cell.blank = "") ∧
    (∀ (s : String) (n : ℤ), intFloatStr s = some n →
      clean_phone_number (Cell.text s) = toString n ∧
      clean_phone (Cell.text s) = toString n) ∧
    (∀ s : String, intFloatStr s = none →
      clean_phone_number (Cell.text s) = pyStrip s ∧
      clean_phone (Cell.text s) = onlyDigits s) := by
  refine ⟨fun q => ⟨rfl, rfl⟩, ⟨rfl, rfl⟩, ?_, ?_⟩
  · intro s n h
    constructor
    · simp [clean_phone_number, h]
    · simp [clean_phone, h]
  · intro s h
    constructor
    · simp [clean_phone_number, h]
    · simp [clean_phone, h]

/-- Claim C1, witness for the amended theorem: on a concrete numerically
uninterpretable text, the resolver's cleaner trims and the filter's cleaner
digit-strips. -/
theorem C1_phone_normalization_amended_witness :
    intFloatStr "abc" = none ∧
    (clean_phone_number (Cell.text "abc") = pyStrip "abc" ∧
      clean_phone (Cell.text "abc") = onlyDigits "abc") :=
  ⟨by decide, C1_phone_normalization_amended.2.2.2 "abc" (by decide)⟩

/- Line-Item Parser (src/app.py:165-188).  The two regexes are specialised
   backtracking matchers.

   `re.match(r'^(.*?)\s*\(', s)`: the lazy group takes the shortest prefix
   (of non-newline characters, since `.` does not match a newline) that is
   followed by a whitespace run and an opening parenthesis; the group is
   then stripped. -/

/-- Does `\s*\(` match at this position?  (`\s*` is effectively maximal
here: giving back a whitespace character can never expose a `(`.) -/
def wsParen : List Char → Bool
  | [] => false
  | c :: cs => c == '(' || (pyIsSpace c && wsParen cs)

/-- The lazy group of `re.match(r'^(.*?)\s*\(', s)`: `none` when the
pattern does not match. -/
def matchUpToParen : List Char → Option (List Char)
  | [] => none
  | c :: cs =>
    if wsParen (c :: cs) then some []
    else if c = '\n' then none
    else (matchUpToParen cs).map (fun g => c :: g)

/-- The parsed product name: the matched group stripped, or `""` when the
product pattern does not match (src/app.py:178). -/
def productOf (cs : List Char) : String :=
  match matchUpToParen cs with
  | some g => pyStrip (String.mk g)
  | none => ""

/-- A character of the class `[0-9.]`. -/
def dChar (c : Char) : Bool := c.isDigit || c == '.'

/-- Attempt of `([0-9.]+)\s*X\s*([0-9.]+)\)` immediately after a `(`.  The
greedy groups are maximal runs: giving back a digit/dot character can never
expose the `X` or the `)` the pattern needs next. -/
def qtyRateAt (cs : List Char) : Option (List Char × List Char) :=
  let g1 := cs.takeWhile dChar
  let r1 := cs.dropWhile dChar
  if g1.isEmpty then none
  else
    match r1.dropWhile pyIsSpace with
    | 'X' :: r3 =>
      let r4 := r3.dropWhile pyIsSpace
      let g2 := r4.takeWhile dChar
      let r5 := r4.dropWhile dChar
      if g2.isEmpty then none
      else
        match r5 with
        | ')' :: _ => some (g1, g2)
        | _ => none
    | _ => none

/-- `re.search(r'\(([0-9.]+)\s*X\s*([0-9.]+)\)', s)`: leftmost match; a
match can only start at a `(`. -/
def qtyRateSearch : List Char → Option (List Char × List Char)
  | [] => none
  | c :: rest =>
    if c = '(' then
      match qtyRateAt rest with
      | some g => some g
      | none => qtyRateSearch rest
    else qtyRateSearch rest

/-- `parse_entry_name` (src/app.py:165-188).  `pd.isna` values return
`(None, None, None)`.  A non-string cell value (float or datetime) makes
`re.match` raise `TypeError`.  When the quantity/rate pattern matches, the
two captured `[0-9.]+` groups go through `float()`, which raises
`ValueError` on a malformed literal such as `"2.5.3"` (uncaught in the
source).  Captured groups cannot overflow a float below 309 digits; an
overflowing group would yield an infinite rate in Python, which is not
modelled (the exact-rational value is kept). -/
def parse_entry_name : Cell → Except String (Option String × Option ℚ × Option ℚ)
  | Cell.blank => Except.ok (none, none, none)
  | Cell.num _ => Except.error "TypeError"
  | Cell.time _ => Except.error "TypeError"
  | Cell.text s =>
    let product := productOf s.data
    match qtyRateSearch s.data with
    | some (g1, g2) =>
      match pyFloatCore (String.mk g1), pyFloatCore (String.mk g2) with
      | some q, some r => Except.ok (some product, some q, some r)
      | _, _ => Except.error "ValueError"
    | none => Except.ok (some product, none, none)

/-- The scheme section of the configuration (src/app.py:46-52). -/
structure SchemeConfig where
  product : String
  price_1l_original : ℚ
  price_1l_discounted : ℚ
  price_500ml_original : ℚ
  price_500ml_discounted : ℚ
deriving DecidableEq

/-- The built-in default scheme configuration (src/app.py:46-52). -/
def defaultConfig : SchemeConfig :=
  { product := "Raw Whole Milk"
    price_1l_original := 60
    price_1l_discounted := 55
    price_500ml_original := 30
    price_500ml_discounted := 27.5 }

/-- `apply_scheme_discount` (src/app.py:190-203). -/
def apply_scheme_discount (product : String) (rate : ℚ) (apply_scheme : Bool)
    (cfg : SchemeConfig) : ℚ :=
  if !apply_scheme then rate
  else if product = cfg.product then
    if rate = cfg.price_1l_original then cfg.price_1l_discounted
    else if rate = cfg.price_500ml_original then cfg.price_500ml_discounted
    else rate
  else rate

/- Supporting lemmas for the product-name regex. -/

theorem wsParen_eq_false_of_not_mem {cs : List Char} (h : '(' ∉ cs) :
    wsParen cs = false := by
  induction cs with
  | nil => rfl
  | cons c cs ih =>
    simp only [List.mem_cons, not_or] at h
    have hc : (c == '(') = false := beq_eq_false_iff_ne.mpr (Ne.symm h.1)
    simp [wsParen, hc, ih h.2]

theorem matchUpToParen_eq_none_of_not_mem {cs : List Char} (h : '(' ∉ cs) :
    matchUpToParen cs = none := by
  induction cs with
  | nil => rfl
  | cons c cs ih =>
    simp only [List.mem_cons, not_or] at h
    rw [matchUpToParen, wsParen_eq_false_of_not_mem]
    · by_cases hn : c = '\n'
      · simp [hn]
      · simp [hn, ih h.2]
    · simp only [List.mem_cons, not_or]
      exact ⟨h.1, h.2⟩

theorem qtyRateSearch_eq_none_of_not_mem {cs : List Char} (h : '(' ∉ cs) :
    qtyRateSearch cs = none := by
  induction cs with
  | nil => rfl
  | cons c cs ih =>
    simp only [List.mem_cons, not_or] at h
    rw [qtyRateSearch, if_neg (fun e => h.1 e.symm)]
    exact ih h.2

theorem takeWhile_ws_of_wsParen {cs : List Char} (h : wsParen cs = true) :
    ∀ x ∈ cs.takeWhile (fun x => x != '('), pyIsSpace x = true := by
  induction cs with
  | nil => simp [wsParen] at h
  | cons c cs ih =>
    rw [wsParen, Bool.or_eq_true, Bool.and_eq_true] at h
    rcases h with h | ⟨hws, hrec⟩
    · have hc : c = '(' := beq_iff_eq.mp h
      simp [hc]
    · have hc : (c != '(') = true := by
        rcases eq_or_ne c '(' with e | e
        · subst e; simp [pyIsSpace] at hws
        · simp [e]
      rw [List.takeWhile_cons, if_pos hc]
      intro x hx
      rcases List.mem_cons.mp hx with e | hx'
      · subst e; exact hws
      · exact ih hrec x hx'

theorem stripWs_append_ws {g w : List Char} (h : ∀ x ∈ w, pyIsSpace x = true) :
    stripWs (g ++ w) = stripWs g := by
  unfold stripWs
  rw [List.dropWhile_append]
  by_cases hg : (g.dropWhile pyIsSpace).isEmpty
  · rw [if_pos hg, List.dropWhile_eq_nil_iff.mpr h]
    rw [List.isEmpty_iff] at hg
    rw [hg]
  · rw [if_neg hg, List.reverse_append,
      List.dropWhile_append_of_pos (fun a ha => h a (List.mem_reverse.mp ha))]

theorem matchUpToParen_spec {cs : List Char}
    (hn : '\n' ∉ cs.takeWhile (fun x => x != '(')) (hp : '(' ∈ cs) :
    ∃ g w, matchUpToParen cs = some g ∧
      cs.takeWhile (fun x => x != '(') = g ++ w ∧ ∀ x ∈ w, pyIsSpace x = true := by
  induction cs with
  | nil => simp at hp
  | cons c cs ih =>
    by_cases hw : wsParen (c :: cs) = true
    · refine ⟨[], (c :: cs).takeWhile (fun x => x != '('), ?_, rfl, takeWhile_ws_of_wsParen hw⟩
      rw [matchUpToParen, if_pos hw]
    · have hc : c ≠ '(' := by
        intro e
        subst e
        simp [wsParen] at hw
      have htw : (c :: cs).takeWhile (fun x => x != '(') =
          c :: cs.takeWhile (fun x => x != '(') := by
        rw [List.takeWhile_cons, if_pos (bne_iff_ne.mpr hc)]
      rw [htw] at hn
      simp only [List.mem_cons, not_or] at hn
      have hcn : c ≠ '\n' := fun e => hn.1 e.symm
      have hp' : '(' ∈ cs := by
        rcases List.mem_cons.mp hp with e | hp'
        · exact absurd e.symm hc
        · exact hp'
      obtain ⟨g, w, h1, h2, h3⟩ := ih hn.2 hp'
      refine ⟨c :: g, w, ?_, ?_, h3⟩
      · rw [matchUpToParen, if_neg hw, if_neg hcn, h1]
        rfl
      · rw [htw, h2]
        rfl

/-- Under a reachable first parenthesis (no newline among the characters
before it, which the lazy `.` cannot cross), the product group is exactly
the text before the first `(`, up to trailing whitespace absorbed by `\s*`
— so the stripped product equals the stripped before-paren text. -/
theorem productOf_spec {cs : List Char}
    (hn : '\n' ∉ cs.takeWhile (fun x => x != '(')) (hp : '(' ∈ cs) :
    productOf cs = pyStrip (String.mk (cs.takeWhile (fun x => x != '('))) := by
  obtain ⟨g, w, h1, h2, h3⟩ := matchUpToParen_spec hn hp
  rw [productOf, h1]
  show String.mk (stripWs g) = String.mk (stripWs (cs.takeWhile (fun x => x != '(')))
  rw [h2, stripWs_append_ws h3]

instance instDecEqExcept {e a : Type} [DecidableEq e] [DecidableEq a] :
    DecidableEq (Except e a) := fun x y =>
  match x, y with
  | Except.ok u, Except.ok v =>
    if h : u = v then Decidable.isTrue (congrArg Except.ok h)
    else Decidable.isFalse (fun w => h (Except.ok.inj w))
  | Except.error u, Except.error v =>
    if h : u = v then Decidable.isTrue (congrArg Except.error h)
    else Decidable.isFalse (fun w => h (Except.error.inj w))
  | Except.ok _, Except.error _ => Decidable.isFalse (fun w => Except.noConfusion w)
  | Except.error _, Except.ok _ => Decidable.isFalse (fun w => Except.noConfusion w)

/-- Claim C2, counterexample: three concrete descriptions on which the
parser does not return the trimmed text before the first parenthesis as
product.  (a) With no parenthetical, `"Mystery Item"` yields product `""`,
not the raw text — the anchored product regex fails and the source
substitutes `""` (src/app.py:178).  (b) With a parenthetical whose
quantity token is not a valid decimal, `"A (2.5.3 X 4)"` makes the parser
raise `ValueError`, returning no product at all.  (c) With a newline
before the first parenthesis, `"a\nb (2 X 3)"` yields product `""` — the
lazy `.` cannot cross the newline — where the claim requires `"a\nb"`. -/
theorem C2_line_parser_counterexample :
    (parse_entry_name (Cell.text "Mystery Item") = Except.ok (some "", none, none) ∧
      some ("" : String) ≠ some "Mystery Item") ∧
    parse_entry_name (Cell.text "A (2.5.3 X 4)") = Except.error "ValueError" ∧
    (parse_entry_name (Cell.text "a\nb (2 X 3)") = Except.ok (some "", some 2, some 3) ∧
      some ("" : String) ≠ some "a\nb") := by
  exact ⟨⟨by with_unfolding_all rfl, by decide⟩, by with_unfolding_all rfl,
    ⟨by with_unfolding_all rfl, by decide⟩⟩

/-- Claim C2, amended: `parseEntry "Raw Whole Milk (2 X 60)"` yields product
`"Raw Whole Milk"`, quantity 2 and rate 60; for a description containing no
opening parenthesis, such as `"Mystery Item"`, the parser returns product
`""` (the empty string, not the raw text) with quantity and rate absent; and
for a description containing an opening parenthesis with no newline among
the characters before the first one, whenever the parse completes without
raising, the returned product is all text before the first opening
parenthesis, trimmed. -/
theorem C2_line_parser_amended :
    parse_entry_name (Cell.text "Raw Whole Milk (2 X 60)") =
      Except.ok (some "Raw Whole Milk", some 2, some 60) ∧
    (∀ s : String, '(' ∉ s.data →
      parse_entry_name (Cell.text s) = Except.ok (some "", none, none)) ∧
    (∀ (s : String) (po : Option String) (qo ro : Option ℚ),
      '(' ∈ s.data → '\n' ∉ s.data.takeWhile (fun x => x != '(') →
      parse_entry_name (Cell.text s) = Except.ok (po, qo, ro) →
      po = some (pyStrip (String.mk (s.data.takeWhile (fun x => x != '('))))) := by
  refine ⟨by with_unfolding_all rfl, ?_, ?_⟩
  · intro s h
    rw [parse_entry_name]
    rw [productOf, matchUpToParen_eq_none_of_not_mem h, qtyRateSearch_eq_none_of_not_mem h]
  · intro s po qo ro hp hn hparse
    have hprod : productOf s.data =
        pyStrip (String.mk (s.data.takeWhile (fun x => x != '('))) := productOf_spec hn hp
    rw [parse_entry_name] at hparse
    cases hq : qtyRateSearch s.data with
    | none =>
      rw [hq] at hparse
      injection hparse with h
      have h1 := congrArg Prod.fst h
      simp only at h1
      rw [← h1, hprod]
    | some g =>
      obtain ⟨g1, g2⟩ := g
      rw [hq] at hparse
      have hparse2 : (match pyFloatCore (String.mk g1), pyFloatCore (String.mk g2) with
          | some q, some r =>
            (Except.ok (some (productOf s.data), some q, some r) :
              Except String (Option String × Option ℚ × Option ℚ))
          | _, _ => Except.error "ValueError") = Except.ok (po, qo, ro) := hparse
      cases h1 : pyFloatCore (String.mk g1) with
      | none => rw [h1] at hparse2; cases hparse2
      | some q1 =>
        rw [h1] at hparse2
        cases h2 : pyFloatCore (String.mk g2) with
        | none => rw [h2] at hparse2; cases hparse2
        | some q2 =>
          rw [h2] at hparse2
          injection hparse2 with h
          have h3 := congrArg Prod.fst h
          simp only at h3
          rw [← h3, hprod]

/-- Claim C2, witness for the amended theorem at concrete inputs: a
parenthesis-free description, and a description whose completed parse
returns the trimmed before-parenthesis text as product. -/
theorem C2_line_parser_amended_witness :
    ('(' ∉ "Plain Entry".data ∧
      parse_entry_name (Cell.text "Plain Entry") = Except.ok (some "", none, none)) ∧
    ('(' ∈ "ab (c)".data ∧ '\n' ∉ "ab (c)".data.takeWhile (fun x => x != '(') ∧
      parse_entry_name (Cell.text "ab (c)") = Except.ok (some "ab", none, none) ∧
      some "ab" = some (pyStrip (String.mk ("ab (c)".data.takeWhile (fun x => x != '('))))) :=
  ⟨⟨by decide, C2_line_parser_amended.2.1 "Plain Entry" (by decide)⟩,
   ⟨by decide, by decide, by with_unfolding_all rfl,
    C2_line_parser_amended.2.2 "ab (c)" (some "ab") none none (by decide) (by decide)
      (by with_unfolding_all rfl)⟩⟩

/-- Claim C10: the Line-Item Parser is not total.  On the text
`"X (2.5.3 X 4)"` — which matches no valid grammar since `2.5.3` is not a
decimal number — the quantity/rate regex nevertheless matches, and the
uncaught `float("2.5.3")` conversion raises `ValueError`
(src/app.py:184).  A non-string cell value (here a float) makes `re.match`
raise `TypeError` (src/app.py:177). -/
theorem C10_parser_crash :
    parse_entry_name (Cell.text "X (2.5.3 X 4)") = Except.error "ValueError" ∧
    parse_entry_name (Cell.num 60) = Except.error "TypeError" :=
  ⟨by with_unfolding_all rfl, by with_unfolding_all rfl⟩

/-- One row of the `receiptsWithItems` sheet, with the default column
mapping (src/app.py:37-45): ReceiptId, Date, Cashier, CustomerName,
CustomerNumber, EntryType, EntryName, PaymentMode.  All columns are
assumed present, as the pipeline requires. -/
structure Row where
  receiptId : Cell
  date : Cell
  cashier : Cell
  customerName : Cell
  customerNumber : Cell
  entryType : Cell
  entryName : Cell
  paymentMode : Cell
deriving DecidableEq, Inhabited

/-- Pandas elementwise equality of a cell against a Python string: true
exactly for an equal text cell (missing values and numbers compare
unequal). -/
def cellEqStr (c : Cell) (s : String) : Bool :=
  match c with
  | Cell.text t => t == s
  | _ => false

/-- Attempt of `(\d+)\)` immediately after a `(` for the discount pattern
`re.search(r'\((\d+)\)', s)` (src/app.py:252).  The greedy digit group is
maximal: giving back a digit can never expose the `)`. -/
def discountAt (cs : List Char) : Option ℕ :=
  let ds := cs.takeWhile Char.isDigit
  if ds.isEmpty then none
  else
    match cs.dropWhile Char.isDigit with
    | ')' :: _ => some (digitsVal ds)
    | _ => none

/-- `re.search(r'\((\d+)\)', s)`: leftmost parenthesized integer. -/
def discountSearch : List Char → Option ℕ
  | [] => none
  | c :: rest =>
    if c = '(' then
      match discountAt rest with
      | some n => some n
      | none => discountSearch rest
    else discountSearch rest

/-- One row of the rendered transaction table (src/app.py:243-279), minus
the date column: the date string printed alongside each line is rendered
from the already-filtered `DateParsed` values and plays no role in the
aggregation the claims are about. -/
inductive PdfLine where
  | discountLine (amount : ℚ)
  | itemLine (product : String) (qty : ℚ) (rate : ℚ) (amount : ℚ)
deriving DecidableEq

/-- One iteration of the `generate_pdf` transaction loop
(src/app.py:246-279), acting on the running total and the rows accumulated
so far.  A `Discount` row searches `str(EntryName)` for a parenthesized
integer; on a match it appends a discount line and subtracts the amount.
Any other row goes through `parse_entry_name` (whose exceptions propagate)
and, when product, quantity and rate are all truthy (non-`None`, non-empty,
non-zero — Python `if product and quantity and rate`), applies the scheme
discount, appends an item line and adds `quantity * rate`. -/
def pdfStep (sch : Bool) (cfg : SchemeConfig) (acc : ℚ × List PdfLine) (r : Row) :
    Except String (ℚ × List PdfLine) :=
  if cellEqStr r.entryType "Discount" then
    match discountSearch (pyStr r.entryName).data with
    | some n => Except.ok (acc.1 - (n : ℚ), acc.2 ++ [PdfLine.discountLine (n : ℚ)])
    | none => Except.ok acc
  else
    match parse_entry_name r.entryName with
    | Except.error e => Except.error e
    | Except.ok (po, qo, ro) =>
      match po, qo, ro with
      | some p, some q, some rt =>
        if p ≠ "" ∧ q ≠ 0 ∧ rt ≠ 0 then
          Except.ok (acc.1 + q * apply_scheme_discount p rt sch cfg,
            acc.2 ++ [PdfLine.itemLine p q (apply_scheme_discount p rt sch cfg)
              (q * apply_scheme_discount p rt sch cfg)])
        else Except.ok acc
      | _, _, _ => Except.ok acc

/-- The `generate_pdf` transaction loop (src/app.py:243-279): fold
`pdfStep` over the filtered rows in source order, starting from a running
total of 0 and an empty table body. -/
def pdfRows (sch : Bool) (cfg : SchemeConfig) :
    ℚ → List PdfLine → List Row → Except String (ℚ × List PdfLine)
  | t, ls, [] => Except.ok (t, ls)
  | t, ls, r :: rs =>
    match pdfStep sch cfg (t, ls) r with
    | Except.error e => Except.error e
    | Except.ok acc => pdfRows sch cfg acc.1 acc.2 rs

/-- Specification-side restatement of a single row's rendered line: a valid
Discount line, a valid Item line (with its effective rate and amount), or
nothing for a line that fails to parse. -/
def pdfLineOf (sch : Bool) (cfg : SchemeConfig) (r : Row) : Option PdfLine :=
  if cellEqStr r.entryType "Discount" then
    match discountSearch (pyStr r.entryName).data with
    | some n => some (PdfLine.discountLine (n : ℚ))
    | none => none
  else
    match parse_entry_name r.entryName with
    | Except.error _ => none
    | Except.ok (po, qo, ro) =>
      match po, qo, ro with
      | some p, some q, some rt =>
        if p ≠ "" ∧ q ≠ 0 ∧ rt ≠ 0 then
          some (PdfLine.itemLine p q (apply_scheme_discount p rt sch cfg)
            (q * apply_scheme_discount p rt sch cfg))
        else none
      | _, _, _ => none

/-- Specification-side restatement of a single row's contribution to the
running total: +amount for a valid Item line, −discountAmount for a valid
Discount line, 0 for a line that fails to parse. -/
def lineContrib (sch : Bool) (cfg : SchemeConfig) (r : Row) : ℚ :=
  match pdfLineOf sch cfg r with
  | some (PdfLine.discountLine n) => -n
  | some (PdfLine.itemLine _ _ _ a) => a
  | none => 0

theorem pdfStep_ok {sch : Bool} {cfg : SchemeConfig} {acc : ℚ × List PdfLine} {r : Row}
    {t2 : ℚ} {ls2 : List PdfLine} (h : pdfStep sch cfg acc r = Except.ok (t2, ls2)) :
    t2 = acc.1 + lineContrib sch cfg r ∧ ls2 = acc.2 ++ (pdfLineOf sch cfg r).toList := by
  rw [pdfStep] at h
  by_cases hd : cellEqStr r.entryType "Discount" = true
  · rw [if_pos hd] at h
    cases hds : discountSearch (pyStr r.entryName).data with
    | some n =>
      rw [hds] at h
      injection h with h
      have h1 := congrArg Prod.fst h
      have h2 := congrArg Prod.snd h
      simp only at h1 h2
      simp [lineContrib, pdfLineOf, hd, hds, ← h1, ← h2, sub_eq_add_neg]
    | none =>
      rw [hds] at h
      injection h with h
      simp [lineContrib, pdfLineOf, hd, hds, h]
  · rw [if_neg hd] at h
    cases hp : parse_entry_name r.entryName with
    | error e => rw [hp] at h; cases h
    | ok tri =>
      rw [hp] at h
      obtain ⟨po, qo, ro⟩ := tri
      rcases po with _ | p <;> rcases qo with _ | q <;> rcases ro with _ | rt
      · injection h with h; simp [lineContrib, pdfLineOf, hd, hp, h]
      · injection h with h; simp [lineContrib, pdfLineOf, hd, hp, h]
      · injection h with h; simp [lineContrib, pdfLineOf, hd, hp, h]
      · injection h with h; simp [lineContrib, pdfLineOf, hd, hp, h]
      · injection h with h; simp [lineContrib, pdfLineOf, hd, hp, h]
      · injection h with h; simp [lineContrib, pdfLineOf, hd, hp, h]
      · injection h with h; simp [lineContrib, pdfLineOf, hd, hp, h]
      · have h' : (if p ≠ "" ∧ q ≠ 0 ∧ rt ≠ 0 then
            Except.ok (acc.1 + q * apply_scheme_discount p rt sch cfg,
              acc.2 ++ [PdfLine.itemLine p q (apply_scheme_discount p rt sch cfg)
                (q * apply_scheme_discount p rt sch cfg)])
          else Except.ok acc) = Except.ok (t2, ls2) := h
        by_cases hv : p ≠ "" ∧ q ≠ 0 ∧ rt ≠ 0
        · rw [if_pos hv] at h'
          injection h' with h'
          have h1 := congrArg Prod.fst h'
          have hl2 := congrArg Prod.snd h'
          simp only at h1 hl2
          simp [lineContrib, pdfLineOf, hd, hp, hv, ← h1, ← hl2]
        · rw [if_neg hv] at h'
          injection h' with h'
          simp [lineContrib, pdfLineOf, hd, hp, hv, h']

theorem pdfRows_ok_spec (sch : Bool) (cfg : SchemeConfig) :
    ∀ (rows : List Row) (t0 : ℚ) (ls0 : List PdfLine) (t : ℚ) (ls : List PdfLine),
      pdfRows sch cfg t0 ls0 rows = Except.ok (t, ls) →
      t = t0 + (rows.map (lineContrib sch cfg)).sum ∧
      ls = ls0 ++ rows.filterMap (pdfLineOf sch cfg) := by
  intro rows
  induction rows with
  | nil =>
    intro t0 ls0 t ls h
    rw [pdfRows] at h
    simp only [Except.ok.injEq, Prod.mk.injEq] at h
    simp [← h.1, ← h.2]
  | cons r rs ih =>
    intro t0 ls0 t ls h
    rw [pdfRows] at h
    cases hs : pdfStep sch cfg (t0, ls0) r with
    | error e => rw [hs] at h; cases h
    | ok acc =>
      rw [hs] at h
      have hs' : pdfStep sch cfg (t0, ls0) r = Except.ok (acc.1, acc.2) := by rw [hs]
      obtain ⟨h1, h2⟩ := pdfStep_ok hs'
      obtain ⟨ht, hl⟩ := ih acc.1 acc.2 t ls h
      constructor
      · rw [ht, h1]
        simp [add_assoc]
      · rw [hl, h2]
        cases hx : pdfLineOf sch cfg r <;> simp [List.filterMap_cons, hx]

/-- Claim C3, amended: over every sequence of filtered transaction rows on
which the loop completes (no parse exception), the total accumulates
quantity × effective rate for each valid Item line and subtracts the
discount amount for each valid Discount line, in source row order; and a
line that fails to parse contributes zero to the running total and is
omitted from (not listed in) the output table. -/
theorem C3_aggregation_amended :
    ∀ (sch : Bool) (cfg : SchemeConfig) (rows : List Row) (t : ℚ) (ls : List PdfLine),
      pdfRows sch cfg 0 [] rows = Except.ok (t, ls) →
      t = (rows.map (lineContrib sch cfg)).sum ∧
      ls = rows.filterMap (pdfLineOf sch cfg) := by
  intro sch cfg rows t ls h
  obtain ⟨h1, h2⟩ := pdfRows_ok_spec sch cfg rows 0 [] t ls h
  constructor
  · rw [h1, zero_add]
  · rw [h2, List.nil_append]

/-- A transaction row whose entry description matches no grammar (an Item
row with no parenthetical). -/
def exBadItemRow : Row :=
  { receiptId := Cell.text "R1", date := Cell.time 0, cashier := Cell.blank,
    customerName := Cell.text "Asha", customerNumber := Cell.text "9876543210",
    entryType := Cell.text "Item", entryName := Cell.text "Mystery Item",
    paymentMode := Cell.text "Cash" }

/-- Claim C3, counterexample: a line that fails to parse does NOT appear in
the output listing — aggregating a single unparseable Item row yields total
0 and an empty table body, where the claim requires the line to be listed. -/
theorem C3_aggregation_counterexample :
    pdfRows false defaultConfig 0 [] [exBadItemRow] = Except.ok (0, []) := by
  with_unfolding_all rfl

/-- A valid Item row. -/
def exItemRow : Row :=
  { exBadItemRow with entryName := Cell.text "Raw Whole Milk (1 X 60)" }

/-- A valid Discount row. -/
def exDiscountRow : Row :=
  { exBadItemRow with
    entryType := Cell.text "Discount"
    entryName := Cell.text "Loyalty (10)" }

/-- A two-line transaction list: one valid item, one valid discount. -/
def exTrans : List Row := [exItemRow, exDiscountRow]

/-- Claim C3, witness for the amended theorem: on a concrete item+discount
list the loop returns total 60 − 10 = 50 with two listed lines, matching
the specification-side sum and listing. -/
theorem C3_aggregation_amended_witness :
    pdfRows false defaultConfig 0 [] exTrans =
      Except.ok (50, [PdfLine.itemLine "Raw Whole Milk" 1 60 60, PdfLine.discountLine 10]) ∧
    ((50 : ℚ) = (exTrans.map (lineContrib false defaultConfig)).sum ∧
      [PdfLine.itemLine "Raw Whole Milk" 1 60 60, PdfLine.discountLine 10] =
        exTrans.filterMap (pdfLineOf false defaultConfig)) :=
  ⟨by with_unfolding_all rfl,
   C3_aggregation_amended false defaultConfig exTrans _ _ (by with_unfolding_all rfl)⟩

/- Record Normalizer (src/app.py:55-79): `process_excel_file` forward-fills
   the six carry-forward columns with `ffill()` and then removes rows in
   which every field is missing with `dropna(how="all")`.  Reading the
   workbook itself (and the error path returning `None` when it cannot be
   read) is I/O outside the model; the transform below starts from the
   parsed rows of the `receiptsWithItems` sheet, with all configured
   columns present. -/

/-- The forward-fill state: the last seen non-blank value of each
carry-forward column (initially blank: nothing seen). -/
structure Carry where
  receiptId : Cell
  date : Cell
  cashier : Cell
  customerName : Cell
  customerNumber : Cell
  paymentMode : Cell
deriving DecidableEq, Inhabited

/-- The initial forward-fill state: no value seen in any column. -/
def initCarry : Carry :=
  { receiptId := Cell.blank, date := Cell.blank, cashier := Cell.blank,
    customerName := Cell.blank, customerNumber := Cell.blank, paymentMode := Cell.blank }

/-- `ffill` on one cell: a missing value is replaced by the last seen one
(which may itself still be blank), a present value is kept. -/
def fillCell (carry c : Cell) : Cell := if c = Cell.blank then carry else c

/-- `ffill` applied to the six carry-forward fields of one row;
`entryType` and `entryName` are not forward-filled. -/
def fillRow (k : Carry) (r : Row) : Row :=
  { r with
    receiptId := fillCell k.receiptId r.receiptId
    date := fillCell k.date r.date
    cashier := fillCell k.cashier r.cashier
    customerName := fillCell k.customerName r.customerName
    customerNumber := fillCell k.customerNumber r.customerNumber
    paymentMode := fillCell k.paymentMode r.paymentMode }

/-- The forward-fill state after a row: the filled row's own carry-forward
values (a present value updates the state, a blank keeps the old one). -/
def stepCarry (k : Carry) (r : Row) : Carry :=
  { receiptId := fillCell k.receiptId r.receiptId
    date := fillCell k.date r.date
    cashier := fillCell k.cashier r.cashier
    customerName := fillCell k.customerName r.customerName
    customerNumber := fillCell k.customerNumber r.customerNumber
    paymentMode := fillCell k.paymentMode r.paymentMode }

/-- Column-wise `ffill()` over the table, row by row. -/
def ffillRows : Carry → List Row → List Row
  | _, [] => []
  | k, r :: rs => fillRow k r :: ffillRows (stepCarry k r) rs

/-- `dropna(how="all")`'s row test: every field of the row is missing. -/
def rowAllBlank (r : Row) : Bool :=
  r.receiptId == Cell.blank && r.date == Cell.blank && r.cashier == Cell.blank &&
    r.customerName == Cell.blank && r.customerNumber == Cell.blank &&
    r.entryType == Cell.blank && r.entryName == Cell.blank && r.paymentMode == Cell.blank

/-- `process_excel_file`'s transform (src/app.py:64-75): forward-fill the
carry-forward columns, then drop rows that are entirely blank after the
fill. -/
def process_excel_file (rows : List Row) : List Row :=
  (ffillRows initCarry rows).filter (fun r => !rowAllBlank r)

/-- The last non-blank value of field `f` in `rows`, or `init` when the
field is blank throughout — the value `ffill` carries into the next row. -/
def lastSeen (f : Row → Cell) (init : Cell) (rows : List Row) : Cell :=
  rows.foldl (fun acc r => if f r = Cell.blank then acc else f r) init

theorem ffill_field (f : Row → Cell) (g : Carry → Cell)
    (h1 : ∀ k r, f (fillRow k r) = fillCell (g k) (f r))
    (h2 : ∀ k r, g (stepCarry k r) = fillCell (g k) (f r)) :
    ∀ (rows : List Row) (k : Carry) (i : ℕ), i < rows.length →
      f ((ffillRows k rows).getD i default) =
        if f (rows.getD i default) = Cell.blank then lastSeen f (g k) (rows.take i)
        else f (rows.getD i default) := by
  intro rows
  induction rows with
  | nil => intro k i h; simp at h
  | cons r rs ih =>
    intro k i h
    cases i with
    | zero =>
      rw [ffillRows]
      simp only [List.getD_cons_zero, List.take_zero]
      rw [h1, lastSeen, List.foldl_nil, fillCell]
    | succ n =>
      have hn : n < rs.length := by simpa using h
      rw [ffillRows]
      simp only [List.getD_cons_succ]
      rw [ih (stepCarry k r) n hn, h2]
      rfl

theorem ffill_preserves (f : Row → Cell) (h0 : ∀ k r, f (fillRow k r) = f r) :
    ∀ (rows : List Row) (k : Carry) (i : ℕ), i < rows.length →
      f ((ffillRows k rows).getD i default) = f (rows.getD i default) := by
  intro rows
  induction rows with
  | nil => intro k i h; simp at h
  | cons r rs ih =>
    intro k i h
    cases i with
    | zero => rw [ffillRows]; simp only [List.getD_cons_zero]; exact h0 k r
    | succ n =>
      have hn : n < rs.length := by simpa using h
      rw [ffillRows]
      simp only [List.getD_cons_succ]
      exact ih (stepCarry k r) n hn

/-- The carry-forward property at row `i`: every carry-forward field is its
own value when present and the nearest preceding non-blank value of that
column otherwise (blank when no preceding value exists), and the two
non-carry-forward fields are untouched. -/
def FilledAt (rows : List Row) (i : ℕ) : Prop :=
  (((ffillRows initCarry rows).getD i default).receiptId =
    if (rows.getD i default).receiptId = Cell.blank then
      lastSeen (fun r => r.receiptId) Cell.blank (rows.take i)
    else (rows.getD i default).receiptId) ∧
  (((ffillRows initCarry rows).getD i default).date =
    if (rows.getD i default).date = Cell.blank then
      lastSeen (fun r => r.date) Cell.blank (rows.take i)
    else (rows.getD i default).date) ∧
  (((ffillRows initCarry rows).getD i default).cashier =
    if (rows.getD i default).cashier = Cell.blank then
      lastSeen (fun r => r.cashier) Cell.blank (rows.take i)
    else (rows.getD i default).cashier) ∧
  (((ffillRows initCarry rows).getD i default).customerName =
    if (rows.getD i default).customerName = Cell.blank then
      lastSeen (fun r => r.customerName) Cell.blank (rows.take i)
    else (rows.getD i default).customerName) ∧
  (((ffillRows initCarry rows).getD i default).customerNumber =
    if (rows.getD i default).customerNumber = Cell.blank then
      lastSeen (fun r => r.customerNumber) Cell.blank (rows.take i)
    else (rows.getD i default).customerNumber) ∧
  (((ffillRows initCarry rows).getD i default).paymentMode =
    if (rows.getD i default).paymentMode = Cell.blank then
      lastSeen (fun r => r.paymentMode) Cell.blank (rows.take i)
    else (rows.getD i default).paymentMode) ∧
  ((ffillRows initCarry rows).getD i default).entryType = (rows.getD i default).entryType ∧
  ((ffillRows initCarry rows).getD i default).entryName = (rows.getD i default).entryName

/-- Claim C5: for every row sequence and every carry-forward field
(receiptId, date, cashier, customerName, customerNumber, paymentMode),
normalization fills each blank occurrence with the nearest preceding
non-blank value of that column (the last one seen before the row), leaves
rows preceding the first non-blank value blank, and never modifies
entryType or entryName. -/
theorem C5_carry_forward :
    ∀ (rows : List Row) (i : ℕ), i < rows.length → FilledAt rows i := by
  intro rows i h
  refine ⟨?_, ?_, ?_, ?_, ?_, ?_, ?_, ?_⟩
  · exact ffill_field (fun r => r.receiptId) (fun k => k.receiptId)
      (fun k r => rfl) (fun k r => rfl) rows initCarry i h
  · exact ffill_field (fun r => r.date) (fun k => k.date)
      (fun k r => rfl) (fun k r => rfl) rows initCarry i h
  · exact ffill_field (fun r => r.cashier) (fun k => k.cashier)
      (fun k r => rfl) (fun k r => rfl) rows initCarry i h
  · exact ffill_field (fun r => r.customerName) (fun k => k.customerName)
      (fun k r => rfl) (fun k r => rfl) rows initCarry i h
  · exact ffill_field (fun r => r.customerNumber) (fun k => k.customerNumber)
      (fun k r => rfl) (fun k r => rfl) rows initCarry i h
  · exact ffill_field (fun r => r.paymentMode) (fun k => k.paymentMode)
      (fun k r => rfl) (fun k r => rfl) rows initCarry i h
  · exact ffill_preserves (fun r => r.entryType) (fun k r => rfl) rows initCarry i h
  · exact ffill_preserves (fun r => r.entryName) (fun k r => rfl) rows initCarry i h

/-- A fully populated normalized-input row. -/
def exN1 : Row :=
  { receiptId := Cell.text "R1", date := Cell.time 86400000000000,
    cashier := Cell.text "C1", customerName := Cell.text "Asha",
    customerNumber := Cell.text "9876543210", entryType := Cell.text "Item",
    entryName := Cell.text "Raw Whole Milk (1 X 60)", paymentMode := Cell.text "Cash" }

/-- A raw row with every field blank. -/
def exAllBlankRow : Row :=
  { receiptId := Cell.blank, date := Cell.blank, cashier := Cell.blank,
    customerName := Cell.blank, customerNumber := Cell.blank, entryType := Cell.blank,
    entryName := Cell.blank, paymentMode := Cell.blank }

/-- A raw row carrying only an entry, all carry-forward fields blank. -/
def exDiscountOnlyRow : Row :=
  { receiptId := Cell.blank, date := Cell.blank, cashier := Cell.blank,
    customerName := Cell.blank, customerNumber := Cell.blank,
    entryType := Cell.text "Discount", entryName := Cell.text "Loyalty (10)",
    paymentMode := Cell.blank }

/-- Claim C5, witness: the carry-forward property evaluated at the second
row of a concrete table whose second row is blank in every carry-forward
field. -/
theorem C5_carry_forward_witness :
    1 < ([exN1, exDiscountOnlyRow] : List Row).length ∧
    FilledAt [exN1, exDiscountOnlyRow] 1 :=
  ⟨by decide, C5_carry_forward _ 1 (by decide)⟩

/-- Claim C4, counterexample: a row that was entirely blank in the raw
input but follows a row with non-blank carry-forward values is NOT deleted:
forward-filling runs before `dropna(how="all")`, so the row's carry-forward
fields are populated and it survives into the normalized table, where the
claim requires it never to appear. -/
theorem C4_blank_row_counterexample :
    process_excel_file [exN1, exAllBlankRow] =
      [exN1, { exN1 with entryType := Cell.blank, entryName := Cell.blank }] := by
  with_unfolding_all rfl

theorem ffillRows_length : ∀ (k : Carry) (rows : List Row),
    (ffillRows k rows).length = rows.length := by
  intro k rows
  induction rows generalizing k with
  | nil => rfl
  | cons r rs ih => rw [ffillRows]; simp [ih]

theorem getD_mem_of_lt {l : List Row} {i : ℕ} (h : i < l.length) (d : Row) :
    l.getD i d ∈ l := by
  induction l generalizing i with
  | nil => simp at h
  | cons a as ih =>
    cases i with
    | zero => simp
    | succ n =>
      have hn : n < as.length := by simpa using h
      exact List.mem_cons_of_mem _ (ih hn)

/-- Claim C4, amended: normalization deletes exactly the rows that are
entirely blank AFTER carry-forward filling — no output row is all-blank —
and a raw all-blank row that follows a non-blank carry-forward value (here
witnessed through customerName) is filled and retained in the output. -/
theorem C4_blank_row_amended :
    (∀ (rows : List Row) (r : Row), r ∈ process_excel_file rows → rowAllBlank r = false) ∧
    (∀ (rows : List Row) (i : ℕ), i < rows.length →
      lastSeen (fun r => r.customerName) Cell.blank (rows.take i) ≠ Cell.blank →
      (ffillRows initCarry rows).getD i default ∈ process_excel_file rows) := by
  constructor
  · intro rows r h
    rw [process_excel_file] at h
    have := (List.mem_filter.mp h).2
    simpa using this
  · intro rows i h hlast
    have hee : ((ffillRows initCarry rows).getD i default).customerName =
        if (rows.getD i default).customerName = Cell.blank then
          lastSeen (fun r => r.customerName) Cell.blank (rows.take i)
        else (rows.getD i default).customerName :=
      ffill_field (fun r => r.customerName) (fun k => k.customerName)
        (fun k r => rfl) (fun k r => rfl) rows initCarry i h
    have hne : ((ffillRows initCarry rows).getD i default).customerName ≠ Cell.blank := by
      rw [hee]
      by_cases hb : (rows.getD i default).customerName = Cell.blank
      · rw [if_pos hb]; exact hlast
      · rw [if_neg hb]; exact hb
    have hmem : (ffillRows initCarry rows).getD i default ∈ ffillRows initCarry rows :=
      getD_mem_of_lt (by rw [ffillRows_length]; exact h) default
    rw [process_excel_file]
    refine List.mem_filter.mpr ⟨hmem, ?_⟩
    have hb : (((ffillRows initCarry rows).getD i default).customerName == Cell.blank) = false :=
      beq_eq_false_iff_ne.mpr hne
    simp only [rowAllBlank, hb, Bool.and_false, Bool.false_and, Bool.not_false]

/-- Claim C4, witness for the amended theorem: in a concrete table whose
second raw row is entirely blank, no output row is all-blank, and the
filled second row is a member of the output. -/
theorem C4_blank_row_amended_witness :
    (exN1 ∈ process_excel_file [exN1, exAllBlankRow] ∧ rowAllBlank exN1 = false) ∧
    (1 < ([exN1, exAllBlankRow] : List Row).length ∧
      lastSeen (fun r => r.customerName) Cell.blank (([exN1, exAllBlankRow] : List Row).take 1) ≠
        Cell.blank ∧
      (ffillRows initCarry [exN1, exAllBlankRow]).getD 1 default ∈
        process_excel_file [exN1, exAllBlankRow]) :=
  ⟨⟨by decide, C4_blank_row_amended.1 [exN1, exAllBlankRow] exN1 (by decide)⟩,
   ⟨by decide, by decide,
    C4_blank_row_amended.2 [exN1, exAllBlankRow] 1 (by decide) (by decide)⟩⟩

/-- A row whose six carry-forward fields are all present (non-blank). -/
def carryFilled (r : Row) : Prop :=
  r.receiptId ≠ Cell.blank ∧ r.date ≠ Cell.blank ∧ r.cashier ≠ Cell.blank ∧
    r.customerName ≠ Cell.blank ∧ r.customerNumber ≠ Cell.blank ∧ r.paymentMode ≠ Cell.blank

instance (r : Row) : Decidable (carryFilled r) := by
  unfold carryFilled
  infer_instance

theorem fillRow_id (k : Carry) {r : Row} (h : carryFilled r) : fillRow k r = r := by
  obtain ⟨h1, h2, h3, h4, h5, h6⟩ := h
  cases r
  simp_all [fillRow, fillCell, carryFilled]

theorem ffill_id : ∀ (rows : List Row) (k : Carry),
    (∀ r ∈ rows, carryFilled r) → ffillRows k rows = rows := by
  intro rows
  induction rows with
  | nil => intro k h; rfl
  | cons r rs ih =>
    intro k h
    rw [ffillRows, fillRow_id k (h r (List.mem_cons_self _ _)),
      ih _ (fun x hx => h x (List.mem_cons_of_mem _ hx))]

/-- Claim C6: normalization is idempotent — on a table whose carry-forward
fields are all already filled and which has no entirely blank row, the
Record Normalizer returns the table unchanged. -/
theorem C6_idempotence :
    ∀ rows : List Row, (∀ r ∈ rows, carryFilled r) → (∀ r ∈ rows, rowAllBlank r = false) →
      process_excel_file rows = rows := by
  intro rows hf hb
  rw [process_excel_file, ffill_id rows initCarry hf]
  refine List.filter_eq_self.mpr ?_
  intro r hr
  simp [hb r hr]

/-- Claim C6, witness: on a concrete fully-filled one-row table the
normalizer is the identity. -/
theorem C6_idempotence_witness :
    (∀ r ∈ ([exN1] : List Row), carryFilled r) ∧
    (∀ r ∈ ([exN1] : List Row), rowAllBlank r = false) ∧
    process_excel_file [exN1] = [exN1] :=
  ⟨by decide, by decide, C6_idempotence [exN1] (by decide) (by decide)⟩

/- Identity Resolver (src/app.py:81-119): `get_unique_customers`. -/

/-- The optional payment-channel restriction shared by the resolver and the
filter (src/app.py:90-91, 150-153): applied only when a payment mode is
given, non-empty (Python truthiness) and not the sentinel `"All"`; rows
match by exact elementwise equality of the PaymentMode cell with the
string. -/
def applyPmFilter (pm : Option String) (l : List Row) : List Row :=
  match pm with
  | none => l
  | some s => if s = "" ∨ s = "All" then l else l.filter (fun r => cellEqStr r.paymentMode s)

/-- Rows with both identity columns present, restricted to the payment
channel, mapped to their cleaned (name, phone) pair: name is
`astype(str).str.strip()`, phone is `clean_phone_number`
(src/app.py:87-103). -/
def customerPairs (df : List Row) (pm : Option String) : List (String × String) :=
  ((applyPmFilter pm (df.filter (fun r =>
      !(r.customerName == Cell.blank) && !(r.customerNumber == Cell.blank)))).map
    (fun r => (pyStrip (pyStr r.customerName), clean_phone_number r.customerNumber)))

/-- Pandas `drop_duplicates()` on the cleaned pairs: keep the first
occurrence of each pair (src/app.py:106). -/
def dedupFirst : List (String × String) → List (String × String)
  | [] => []
  | p :: ps => p :: dedupFirst (ps.filter (fun q => !(q == p)))
termination_by l => l.length
decreasing_by
  simp only [List.length_cons]
  exact Nat.lt_succ_of_le (List.length_filter_le _ _)

/-- The resolver's ordering: ascending by cleaned customer name
(code-point lexicographic, as pandas `sort_values` sorts strings). -/
def nameLe (a b : String × String) : Prop := a.1 ≤ b.1

instance : DecidableRel nameLe := fun a b => inferInstanceAs (Decidable (a.1 ≤ b.1))

instance : IsTotal (String × String) nameLe := ⟨fun a b => le_total a.1 b.1⟩

instance : IsTrans (String × String) nameLe := ⟨fun _ _ _ h1 h2 => le_trans h1 h2⟩

/-- `get_unique_customers` (src/app.py:81-119): empty input gives no
customers; otherwise clean, deduplicate on the (name, phone) pair, and sort
by name.  (`sort_values` may reorder ties arbitrarily; the model uses
insertion sort, also a name-ascending permutation.) -/
def get_unique_customers (df : List Row) (pm : Option String) : List (String × String) :=
  if df.isEmpty then []
  else List.insertionSort nameLe (dedupFirst (customerPairs df pm))

theorem mem_dedupFirst (x : String × String) :
    ∀ l : List (String × String), x ∈ dedupFirst l ↔ x ∈ l := by
  intro l
  induction l using dedupFirst.induct with
  | case1 => simp [dedupFirst]
  | case2 p ps ih =>
    rw [dedupFirst]
    simp only [List.mem_cons, ih, List.mem_filter]
    constructor
    · rintro (h | ⟨h1, _⟩)
      · exact Or.inl h
      · exact Or.inr h1
    · rintro (h | h1)
      · exact Or.inl h
      · by_cases hx : x = p
        · exact Or.inl hx
        · refine Or.inr ⟨h1, ?_⟩
          rw [Bool.not_eq_true', beq_eq_false_iff_ne]
          exact hx

theorem nodup_dedupFirst : ∀ l : List (String × String), (dedupFirst l).Nodup := by
  intro l
  induction l using dedupFirst.induct with
  | case1 => rw [show dedupFirst [] = [] from by rw [dedupFirst]]; exact List.nodup_nil
  | case2 p ps ih =>
    rw [dedupFirst]
    refine List.nodup_cons.mpr ⟨?_, ih⟩
    rw [mem_dedupFirst]
    simp [List.mem_filter]

theorem customerPairs_nil (pm : Option String) : customerPairs [] pm = [] := by
  rw [customerPairs]
  cases pm with
  | none => rfl
  | some s =>
    rw [applyPmFilter]
    split <;> rfl

/-- Claim C7: for every normalized table and optional payment-channel
filter, the Identity Resolver returns one entry per distinct cleaned
(trimmed name, canonical phone) pair — membership coincides with the
cleaned pairs of the filtered rows and the result is duplicate-free, so two
rows with identical phone but different trimmed names yield two entries —
sorted ascending by canonical name. -/
theorem C7_identity_resolver :
    ∀ (df : List Row) (pm : Option String),
      List.Sorted nameLe (get_unique_customers df pm) ∧
      (get_unique_customers df pm).Nodup ∧
      (∀ p : String × String, p ∈ get_unique_customers df pm ↔ p ∈ customerPairs df pm) := by
  intro df pm
  rw [get_unique_customers]
  by_cases hd : df.isEmpty
  · rw [if_pos hd]
    have hnil : df = [] := by
      cases df with
      | nil => rfl
      | cons a as => simp [List.isEmpty] at hd
    subst hnil
    refine ⟨List.sorted_nil, List.nodup_nil, ?_⟩
    intro p
    rw [customerPairs_nil]
  · rw [if_neg hd]
    refine ⟨List.sorted_insertionSort nameLe _, ?_, ?_⟩
    · rw [List.Perm.nodup_iff (List.perm_insertionSort nameLe _)]
      exact nodup_dedupFirst _
    · intro p
      rw [(List.perm_insertionSort nameLe _).mem_iff, mem_dedupFirst]

/-- Claim C8: the Pricing Engine leaves the rate unchanged when the scheme
toggle is off or the product differs from the configured scheme product;
with the toggle on and a matching product, a rate equal to originalRate1
becomes discountedRate1, a rate equal to originalRate2 (the two configured
original rates being distinct) becomes discountedRate2, and any other rate
is unchanged. -/
theorem C8_scheme_discount :
    ∀ (p : String) (rate : ℚ) (cfg : SchemeConfig),
      apply_scheme_discount p rate false cfg = rate ∧
      (p ≠ cfg.product → apply_scheme_discount p rate true cfg = rate) ∧
      (p = cfg.product →
        (rate = cfg.price_1l_original →
          apply_scheme_discount p rate true cfg = cfg.price_1l_discounted) ∧
        (cfg.price_1l_original ≠ cfg.price_500ml_original →
          rate = cfg.price_500ml_original →
          apply_scheme_discount p rate true cfg = cfg.price_500ml_discounted) ∧
        (rate ≠ cfg.price_1l_original → rate ≠ cfg.price_500ml_original →
          apply_scheme_discount p rate true cfg = rate)) := by
  intro p rate cfg
  refine ⟨rfl, ?_, ?_⟩
  · intro hp
    rw [apply_scheme_discount]
    simp [hp]
  · intro hp
    refine ⟨?_, ?_, ?_⟩
    · intro h1
      rw [apply_scheme_discount]
      simp [hp, h1]
    · intro hdist h2
      rw [apply_scheme_discount]
      have h1 : cfg.price_500ml_original ≠ cfg.price_1l_original := fun e => hdist e.symm
      simp [hp, h2, h1]
    · intro h1 h2
      rw [apply_scheme_discount]
      simp [hp, h1, h2]

/-- Claim C8, witness: with the default configuration and the toggle on,
rate 60 becomes 55, rate 30 becomes 27.5, rate 50 is unchanged; another
product keeps rate 60; and the toggle off keeps rate 60. -/
theorem C8_scheme_discount_witness :
    apply_scheme_discount "Raw Whole Milk" 60 false defaultConfig = 60 ∧
    apply_scheme_discount "Raw Whole Milk" 60 true defaultConfig = 55 ∧
    apply_scheme_discount "Raw Whole Milk" 30 true defaultConfig = 27.5 ∧
    apply_scheme_discount "Raw Whole Milk" 50 true defaultConfig = 50 ∧
    apply_scheme_discount "Toned Milk" 60 true defaultConfig = 60 :=
  ⟨(C8_scheme_discount "Raw Whole Milk" 60 defaultConfig).1,
   ((C8_scheme_discount "Raw Whole Milk" 60 defaultConfig).2.2 rfl).1 rfl,
   ((C8_scheme_discount "Raw Whole Milk" 30 defaultConfig).2.2 rfl).2.1
     (by norm_num [defaultConfig]) rfl,
   ((C8_scheme_discount "Raw Whole Milk" 50 defaultConfig).2.2 rfl).2.2
     (by norm_num [defaultConfig]) (by norm_num [defaultConfig]),
   (C8_scheme_discount "Toned Milk" 60 defaultConfig).2.1 (by decide)⟩

/- Transaction Filter (src/app.py:121-163): `filter_customer_transactions`. -/

/-- Model of `pd.to_datetime(cell, errors="coerce")` on a Date cell:
datetime-typed cells (the POS export's Date column type) pass through as
their nanosecond timestamp; missing cells give `NaT` (`none`); numeric
cells are interpreted as nanosecond offsets from the epoch (truncated
toward zero; exact sub-nanosecond rounding is immaterial to every claim).
Parsing of the many accepted datetime string formats is not modelled: text
cells are treated as unparseable here, and no claim evaluates the filter on
a text-typed date. -/
def pdToDatetime : Cell → Option ℤ
  | Cell.time t => some t
  | Cell.num q => some (ratTrunc q)
  | Cell.blank => none
  | Cell.text _ => none

/-- The last nanosecond-resolution second of day `d`: the code's upper
bound `to_datetime(end_date) + Timedelta(hours=23, minutes=59, seconds=59)`
(src/app.py:126). -/
def endOfDayNs (d : ℤ) : ℤ := d * nsPerDay + 86399 * 1000000000

/-- The date-window test (src/app.py:144-148): the parsed date must exist
(`NaT` compares false) and lie within `[start_dt, end_dt]`. -/
def dateOk (startDay endDay : ℤ) (r : Row) : Bool :=
  match pdToDatetime r.date with
  | some t => decide (startDay * nsPerDay ≤ t) && decide (t ≤ endOfDayNs endDay)
  | none => false

/-- The billable-entry-kind test (src/app.py:161):
`EntryType.isin(["Item", "Discount"])`. -/
def entryTypeOk (r : Row) : Bool :=
  cellEqStr r.entryType "Item" || cellEqStr r.entryType "Discount"

/-- `filter_customer_transactions` (src/app.py:121-163): keep the rows
whose cleaned phone equals the cleaned target number, whose date parses
into the closed window `[start 00:00:00, end 23:59:59]`, which pass the
optional payment-mode restriction, and whose entry type is billable;
source order is preserved.  The `DateParsed` helper column the code adds is
not carried: later stages only reformat it. -/
def filter_customer_transactions (df : List Row) (customer_number : String)
    (startDay endDay : ℤ) (pm : Option String) : List Row :=
  ((applyPmFilter pm
      ((df.filter (fun r => clean_phone r.customerNumber == clean_phone (Cell.text customer_number))).filter
        (dateOk startDay endDay))).filter
    entryTypeOk)

/-- Membership in the payment-mode restriction, as a row predicate. -/
def pmRowOk (pm : Option String) (r : Row) : Bool :=
  match pm with
  | none => true
  | some s => if s = "" ∨ s = "All" then true else cellEqStr r.paymentMode s

theorem mem_applyPmFilter {pm : Option String} {l : List Row} {r : Row} :
    r ∈ applyPmFilter pm l ↔ r ∈ l ∧ pmRowOk pm r = true := by
  cases pm with
  | none => simp [applyPmFilter, pmRowOk]
  | some s =>
    rw [applyPmFilter, pmRowOk]
    by_cases hs : s = "" ∨ s = "All"
    · simp [hs]
    · simp [hs, List.mem_filter]

theorem mem_filter_customer_transactions {df : List Row} {cn : String} {sd ed : ℤ}
    {pm : Option String} {r : Row} :
    r ∈ filter_customer_transactions df cn sd ed pm ↔
      r ∈ df ∧ clean_phone r.customerNumber = clean_phone (Cell.text cn) ∧
      dateOk sd ed r = true ∧ pmRowOk pm r = true ∧ entryTypeOk r = true := by
  rw [filter_customer_transactions]
  simp only [List.mem_filter, mem_applyPmFilter, beq_iff_eq]
  tauto

/-- Claim C9: the date window is closed and inclusive through 23:59:59 of
the end date: a row timestamped exactly at that end-of-day instant (meeting
the other filter conditions) is included; a row timestamped at or after
midnight of the following day is excluded; and a row whose date does not
parse (`NaT`) is excluded rather than raising an error. -/
theorem C9_date_window :
    (∀ (df : List Row) (cn : String) (sd ed : ℤ) (pm : Option String) (r : Row),
      r ∈ df → clean_phone r.customerNumber = clean_phone (Cell.text cn) →
      r.date = Cell.time (endOfDayNs ed) → sd ≤ ed →
      pmRowOk pm r = true → entryTypeOk r = true →
      r ∈ filter_customer_transactions df cn sd ed pm) ∧
    (∀ (df : List Row) (cn : String) (sd ed : ℤ) (pm : Option String) (r : Row) (t : ℤ),
      r.date = Cell.time t → (ed + 1) * nsPerDay ≤ t →
      r ∉ filter_customer_transactions df cn sd ed pm) ∧
    (∀ (df : List Row) (cn : String) (sd ed : ℤ) (pm : Option String) (r : Row),
      pdToDatetime r.date = none → r ∉ filter_customer_transactions df cn sd ed pm) := by
  refine ⟨?_, ?_, ?_⟩
  · intro df cn sd ed pm r hmem hph hdate hse hpm het
    refine mem_filter_customer_transactions.mpr ⟨hmem, hph, ?_, hpm, het⟩
    rw [dateOk, hdate]
    simp only [pdToDatetime]
    have h1 : sd * nsPerDay ≤ endOfDayNs ed := by
      have h2 : sd * nsPerDay ≤ ed * nsPerDay := by
        apply mul_le_mul_of_nonneg_right hse
        norm_num [nsPerDay]
      refine le_trans h2 ?_
      rw [endOfDayNs]
      norm_num
    simp [h1]
  · intro df cn sd ed pm r t hdate ht hmem
    obtain ⟨-, -, hdok, -, -⟩ := mem_filter_customer_transactions.mp hmem
    rw [dateOk, hdate] at hdok
    simp only [pdToDatetime, Bool.and_eq_true, decide_eq_true_eq] at hdok
    have hup := hdok.2
    rw [endOfDayNs] at hup
    rw [show (ed + 1) * nsPerDay = ed * nsPerDay + nsPerDay from by ring] at ht
    have : ed * nsPerDay + nsPerDay ≤ ed * nsPerDay + 86399 * 1000000000 := le_trans ht hup
    norm_num [nsPerDay] at this
  · intro df cn sd ed pm r hnone hmem
    obtain ⟨-, -, hdok, -, -⟩ := mem_filter_customer_transactions.mp hmem
    rw [dateOk, hnone] at hdok
    exact Bool.false_ne_true hdok

/-- A row timestamped exactly at 23:59:59 of day 1. -/
def exF1 : Row := { exN1 with date := Cell.time (endOfDayNs 1) }

/-- A row timestamped at midnight of day 2 (the day after the end date). -/
def exF2 : Row := { exN1 with date := Cell.time (2 * nsPerDay) }

/-- A row whose date is missing (unparseable: `NaT`). -/
def exF3 : Row := { exN1 with date := Cell.blank }

/-- Claim C9, witness: over the window [day 0, day 1], the end-of-day row
is kept while the next-day row and the unparseable-date row are excluded. -/
theorem C9_date_window_witness :
    (exF1 ∈ [exF1, exF2, exF3] ∧
      clean_phone exF1.customerNumber = clean_phone (Cell.text "9876543210") ∧
      exF1.date = Cell.time (endOfDayNs 1) ∧ (0 : ℤ) ≤ 1 ∧
      pmRowOk (some "All") exF1 = true ∧ entryTypeOk exF1 = true ∧
      exF1 ∈ filter_customer_transactions [exF1, exF2, exF3] "9876543210" 0 1 (some "All")) ∧
    (exF2.date = Cell.time (2 * nsPerDay) ∧ (1 + 1 : ℤ) * nsPerDay ≤ 2 * nsPerDay ∧
      exF2 ∉ filter_customer_transactions [exF1, exF2, exF3] "9876543210" 0 1 (some "All")) ∧
    (pdToDatetime exF3.date = none ∧
      exF3 ∉ filter_customer_transactions [exF1, exF2, exF3] "9876543210" 0 1 (some "All")) :=
  ⟨⟨by decide, rfl, rfl, by decide, by decide, rfl,
    C9_date_window.1 [exF1, exF2, exF3] "9876543210" 0 1 (some "All") exF1
      (by decide) rfl rfl (by decide) (by decide) rfl⟩,
   ⟨rfl, by decide,
    C9_date_window.2.1 [exF1, exF2, exF3] "9876543210" 0 1 (some "All") exF2
      (2 * nsPerDay) rfl (by decide)⟩,
   ⟨rfl,
    C9_date_window.2.2 [exF1, exF2, exF3] "9876543210" 0 1 (some "All") exF3 rfl⟩⟩
